import Mathlib

/-!
Verification of the mds registry core against its specification.

This file shallowly embeds the C sources of the mds repository
(src/libmdsserver/client-list.c, src/libmdsserver/linked-list.c,
src/mds-registry.c, src/mds.c, src/mds-message.h) as executable Lean
definitions and proves or refutes the frozen claims about them.

Machine integers are modelled as Nat with explicit reductions modulo
2^64 where size_t overflow matters; ssize_t values (linked-list slot
indices) are modelled as Int.  Fallible allocation is modelled by
explicit Bool oracles: an operation takes the outcome of each
allocation it may perform as a parameter.
-/

/-! ## to_power_of_two (client-list.c lines 41-53, linked-list.c lines 38-50)

The C function, on a 64-bit size_t:
  value -= 1; value |= value >> 1; ... ; value |= value >> 32; return value + 1;
The decrement and the final increment wrap modulo 2^64. -/

/-- First stage of the shift-or cascade: value |= value >> 1. -/
def smear1 (v : Nat) : Nat := v ||| (v >>> 1)

/-- Second stage: value |= value >> 2. -/
def smear2 (v : Nat) : Nat := smear1 v ||| (smear1 v >>> 2)

/-- Third stage: value |= value >> 4. -/
def smear3 (v : Nat) : Nat := smear2 v ||| (smear2 v >>> 4)

/-- Fourth stage: value |= value >> 8. -/
def smear4 (v : Nat) : Nat := smear3 v ||| (smear3 v >>> 8)

/-- Fifth stage: value |= value >> 16. -/
def smear5 (v : Nat) : Nat := smear4 v ||| (smear4 v >>> 16)

/-- Sixth stage (64-bit build): value |= value >> 32. -/
def smear6 (v : Nat) : Nat := smear5 v ||| (smear5 v >>> 32)

/-- `to_power_of_two` from client-list.c / linked-list.c: the whole body on a
64-bit size_t, with the initial `value -= 1` and the final `+ 1` wrapping
modulo 2^64. -/
def to_power_of_two (value : Nat) : Nat :=
  (smear6 ((value + (2 ^ 64 - 1)) % 2 ^ 64) + 1) % 2 ^ 64

theorem testBit_or_shift (w s i : Nat) :
    (w ||| (w >>> s)).testBit i = (w.testBit i || w.testBit (s + i)) := by
  simp [Nat.testBit_lor, Nat.testBit_shiftRight]

theorem smear_step (v w k : Nat)
    (h : ∀ i, w.testBit i = true ↔ ∃ d, d ≤ k ∧ v.testBit (i + d) = true) :
    ∀ i, (w ||| (w >>> (k + 1))).testBit i = true ↔
      ∃ d, d ≤ 2 * k + 1 ∧ v.testBit (i + d) = true := by
  intro i
  rw [testBit_or_shift]
  simp only [Bool.or_eq_true]
  constructor
  · rintro (hl | hr)
    · obtain ⟨d, hd, hb⟩ := (h i).mp hl
      exact ⟨d, by omega, hb⟩
    · obtain ⟨d, hd, hb⟩ := (h (k + 1 + i)).mp hr
      refine ⟨d + (k + 1), by omega, ?_⟩
      rwa [show i + (d + (k + 1)) = k + 1 + i + d by omega]
  · rintro ⟨d, hd, hb⟩
    by_cases hdk : d ≤ k
    · exact Or.inl ((h i).mpr ⟨d, hdk, hb⟩)
    · refine Or.inr ((h (k + 1 + i)).mpr ⟨d - (k + 1), by omega, ?_⟩)
      rwa [show k + 1 + i + (d - (k + 1)) = i + d by omega]

theorem smear6_testBit (v : Nat) :
    ∀ i, (smear6 v).testBit i = true ↔ ∃ d, d ≤ 63 ∧ v.testBit (i + d) = true := by
  have h0 : ∀ i, v.testBit i = true ↔ ∃ d, d ≤ 0 ∧ v.testBit (i + d) = true := by
    intro i
    constructor
    · intro h
      exact ⟨0, Nat.le_refl 0, by simpa using h⟩
    · rintro ⟨d, hd, hb⟩
      have : d = 0 := Nat.le_zero.mp hd
      subst this
      simpa using hb
  have h1 := smear_step v v 0 h0
  have h2 := smear_step v (smear1 v) 1 h1
  have h3 := smear_step v (smear2 v) 3 h2
  have h4 := smear_step v (smear3 v) 7 h3
  have h5 := smear_step v (smear4 v) 15 h4
  have h6 := smear_step v (smear5 v) 31 h5
  exact h6

theorem testBit_of_le_lt (w k : Nat) (hlow : 2 ^ k ≤ w) (hhigh : w < 2 ^ (k + 1)) :
    w.testBit k = true := by
  rw [Nat.testBit_to_div_mod]
  have hdiv : w / 2 ^ k = 1 := by
    refine Nat.div_eq_of_lt_le (by simpa using hlow) ?_
    have : (1 + 1) * 2 ^ k = 2 ^ (k + 1) := by ring
    omega
  simp [hdiv]

theorem smear6_eq (w k : Nat) (hk : k ≤ 63) (hlow : 2 ^ k ≤ w) (hhigh : w < 2 ^ (k + 1)) :
    smear6 w = 2 ^ (k + 1) - 1 := by
  apply Nat.eq_of_testBit_eq
  intro i
  rw [Nat.testBit_two_pow_sub_one]
  by_cases hik : i < k + 1
  · have : (smear6 w).testBit i = true := by
      refine (smear6_testBit w i).mpr ⟨k - i, by omega, ?_⟩
      rw [show i + (k - i) = k by omega]
      exact testBit_of_le_lt w k hlow hhigh
    simp [this, hik]
  · have : (smear6 w).testBit i = false := by
      rw [← Bool.not_eq_true]
      intro hb
      obtain ⟨d, hd, hb⟩ := (smear6_testBit w i).mp hb
      have hfalse : w.testBit (i + d) = false := by
        apply Nat.testBit_lt_two_pow
        calc w < 2 ^ (k + 1) := hhigh
        _ ≤ 2 ^ (i + d) := Nat.pow_le_pow_right (by omega) (by omega)
      rw [hfalse] at hb
      exact Bool.false_ne_true hb
    simp [this, hik]

/-- The value computed by `to_power_of_two` is zero (64-bit overflow of the
rounding) or a power of two. -/
theorem to_power_of_two_pow2_or_zero (v : Nat) :
    to_power_of_two v = 0 ∨ ∃ k, to_power_of_two v = 2 ^ k := by
  unfold to_power_of_two
  set w := (v + (2 ^ 64 - 1)) % 2 ^ 64 with hw
  have hwlt : w < 2 ^ 64 := Nat.mod_lt _ (by norm_num)
  by_cases hw0 : w = 0
  · right
    refine ⟨0, ?_⟩
    rw [hw0]
    rfl
  · have hw1 : 1 ≤ w := Nat.one_le_iff_ne_zero.mpr hw0
    set k := w.log2 with hk
    have hlow : 2 ^ k ≤ w := Nat.log2_self_le hw0
    have hhigh : w < 2 ^ (k + 1) := (Nat.log2_lt hw0).mp (Nat.lt_succ_self k)
    have hk63 : k ≤ 63 := by
      have : k < 64 := (Nat.log2_lt hw0).mpr hwlt
      omega
    rw [smear6_eq w k hk63 hlow hhigh]
    have hpow : 2 ^ (k + 1) - 1 + 1 = 2 ^ (k + 1) := by
      have : 1 ≤ 2 ^ (k + 1) := Nat.one_le_two_pow
      omega
    rw [hpow]
    by_cases hk64 : k + 1 = 64
    · left
      rw [hk64]
      simp
    · right
      refine ⟨k + 1, Nat.mod_eq_of_lt ?_⟩
      exact Nat.pow_lt_pow_right (by omega) (by omega)

/-- `to_power_of_two` always yields a value below 2^64 (it is a size_t). -/
theorem to_power_of_two_lt (v : Nat) : to_power_of_two v < 2 ^ 64 :=
  Nat.mod_lt _ (by norm_num)

/-! ## Client list (src/libmdsserver/client-list.c)

The struct holds `capacity`, `size` and a heap array `clients` of which the
first `size` entries are meaningful.  We model the meaningful prefix as a
Lean list, so `size` is `clients.length`; `capacity` is kept as a field.
Clients are uint64 values (Nat below 2^64). -/

/-- The client_list_t struct: capacity plus the first `size` stored clients. -/
structure client_list where
  capacity : Nat
  clients : List Nat
deriving DecidableEq, Repr

/-- The default initial capacity CLIENT_LIST_DEFAULT_INITIAL_CAPACITY. -/
def CLIENT_LIST_DEFAULT_INITIAL_CAPACITY : Nat := 8

/-- `client_list_create` (client-list.c lines 63-77): a zero capacity request
means the default (8); the capacity is rounded by `to_power_of_two`; the list
starts empty.  The capacity field is assigned before the allocation, so a
failing `xmalloc` does not change these fields (the caller destroys the list);
the allocation outcome is therefore not a parameter here. -/
def client_list_create (capacity : Nat) : client_list :=
  { capacity := to_power_of_two (if capacity = 0 then CLIENT_LIST_DEFAULT_INITIAL_CAPACITY else capacity),
    clients := [] }

/-- `client_list_add` (client-list.c lines 133-148).  When the list is full the
capacity is doubled (`capacity <<= 1` on a size_t) before the `xrealloc`; on
reallocation failure the capacity is halved back and -1 returned with the list
intact.  `allocOk` is the outcome of that reallocation. -/
def client_list_add (l : client_list) (client : Nat) (allocOk : Bool) :
    client_list × Int :=
  if l.clients.length = l.capacity then
    if allocOk then
      ({ capacity := 2 * l.capacity % 2 ^ 64, clients := l.clients ++ [client] }, 0)
    else
      (l, -1)
  else
    ({ l with clients := l.clients ++ [client] }, 0)

/-- `client_list_remove` (client-list.c lines 157-180).  The first occurrence
of `client` is removed by shifting the tail left; if afterwards
`size << 1 <= capacity` the capacity is halved (`capacity >>= 1`) and the
array shrunk; a shrink reallocation failure is ignored after restoring the
capacity with `capacity <<= 1` (which zeroes an odd capacity's low bit).
Removing an absent client is a no-op.  `allocOk` is the shrink outcome. -/
def client_list_remove (l : client_list) (client : Nat) (allocOk : Bool) :
    client_list :=
  if client ∈ l.clients then
    let clients' := l.clients.erase client
    if 2 * clients'.length ≤ l.capacity then
      if allocOk then
        { capacity := l.capacity / 2, clients := clients' }
      else
        { capacity := l.capacity / 2 * 2, clients := clients' }
    else
      { l with clients := clients' }
  else
    l

/-- One client-list operation together with its allocation outcome. -/
inductive cl_op where
  | add (client : Nat) (allocOk : Bool)
  | remove (client : Nat) (allocOk : Bool)
deriving DecidableEq, Repr

/-- Apply one operation to a client list. -/
def cl_step (l : client_list) (op : cl_op) : client_list :=
  match op with
  | .add c ok => (client_list_add l c ok).1
  | .remove c ok => client_list_remove l c ok

/-- Run a sequence of add/remove operations on a freshly created list. -/
def client_list_run (capacity : Nat) (ops : List cl_op) : client_list :=
  ops.foldl cl_step (client_list_create capacity)

/-- Well-formedness carried through every client-list operation: the capacity
is a size_t, and it is zero (after a 64-bit overflow or a shrink of capacity
one) or a power of two bounding the size. -/
def cl_wf (l : client_list) : Prop :=
  l.capacity < 2 ^ 64 ∧
    (l.capacity = 0 ∨ ((∃ k, l.capacity = 2 ^ k) ∧ l.clients.length ≤ l.capacity))

theorem cl_wf_create (capacity : Nat) : cl_wf (client_list_create capacity) := by
  refine ⟨to_power_of_two_lt _, ?_⟩
  rcases to_power_of_two_pow2_or_zero
      (if capacity = 0 then CLIENT_LIST_DEFAULT_INITIAL_CAPACITY else capacity) with h | h
  · left
    exact h
  · right
    exact ⟨h, Nat.zero_le _⟩

theorem cl_wf_add (l : client_list) (c : Nat) (ok : Bool) (h : cl_wf l) :
    cl_wf (client_list_add l c ok).1 := by
  obtain ⟨hlt, hinv⟩ := h
  unfold client_list_add
  by_cases hfull : l.clients.length = l.capacity
  · cases ok with
    | false =>
      simp only [hfull, if_true, Bool.false_eq_true, if_false]
      exact ⟨hlt, hinv⟩
    | true =>
      simp only [hfull, if_true]
      refine ⟨Nat.mod_lt _ (by norm_num), ?_⟩
      rcases hinv with hz | ⟨⟨k, hk⟩, _⟩
      · left
        rw [hz]
        rfl
      · have hk64 : k < 64 := by
          rw [hk] at hlt
          exact (Nat.pow_lt_pow_iff_right (by norm_num)).mp hlt
        have hpos : 1 ≤ 2 ^ k := Nat.one_le_two_pow
        have hdouble : 2 * l.capacity = 2 ^ (k + 1) := by
          rw [hk]
          ring
        by_cases hk63 : k + 1 = 64
        · left
          rw [hdouble, hk63]
          simp
        · right
          have hsmall : 2 * l.capacity < 2 ^ 64 := by
            rw [hdouble]
            exact Nat.pow_lt_pow_right (by norm_num) (by omega)
          refine ⟨⟨k + 1, by rw [Nat.mod_eq_of_lt hsmall, hdouble]⟩, ?_⟩
          rw [Nat.mod_eq_of_lt hsmall, List.length_append, hdouble, pow_succ]
          simp only [List.length_cons, List.length_nil]
          rw [hk] at hfull
          omega
  · simp only [hfull, if_false]
    refine ⟨hlt, ?_⟩
    rcases hinv with hz | ⟨⟨k, hk⟩, hlen⟩
    · left
      exact hz
    · right
      refine ⟨⟨k, hk⟩, ?_⟩
      rw [List.length_append]
      simp only [List.length_cons, List.length_nil]
      omega

theorem cl_wf_remove (l : client_list) (c : Nat) (ok : Bool) (h : cl_wf l) :
    cl_wf (client_list_remove l c ok) := by
  obtain ⟨hlt, hinv⟩ := h
  unfold client_list_remove
  by_cases hmem : c ∈ l.clients
  · have hlen' : (l.clients.erase c).length = l.clients.length - 1 :=
      List.length_erase_of_mem hmem
    have hpos : 0 < l.clients.length := List.length_pos.mpr (List.ne_nil_of_mem hmem)
    simp only [hmem, if_true]
    by_cases hshrink : 2 * (l.clients.erase c).length ≤ l.capacity
    · cases ok with
      | true =>
        simp only [hshrink, if_true]
        refine ⟨by dsimp only; omega, ?_⟩
        rcases hinv with hz | ⟨⟨k, hk⟩, hlen⟩
        · left
          rw [hz]
        · cases k with
          | zero =>
            left
            rw [hk]
            rfl
          | succ k =>
            right
            have hhalf : l.capacity / 2 = 2 ^ k := by
              rw [hk, pow_succ]
              omega
            refine ⟨⟨k, hhalf⟩, ?_⟩
            dsimp only
            rw [hhalf]
            rw [hk, pow_succ] at hshrink
            omega
      | false =>
        simp only [hshrink, if_true, Bool.false_eq_true, if_false]
        refine ⟨by dsimp only; omega, ?_⟩
        rcases hinv with hz | ⟨⟨k, hk⟩, hlen⟩
        · left
          rw [hz]
        · cases k with
          | zero =>
            left
            rw [hk]
            rfl
          | succ k =>
            right
            have hres : l.capacity / 2 * 2 = l.capacity := by
              rw [hk, pow_succ]
              omega
            dsimp only
            rw [hres]
            exact ⟨⟨k + 1, hk⟩, by omega⟩
    · simp only [hshrink, if_false]
      refine ⟨hlt, ?_⟩
      rcases hinv with hz | ⟨⟨k, hk⟩, hlen⟩
      · left
        exact hz
      · right
        exact ⟨⟨k, hk⟩, by dsimp only; omega⟩
  · simp only [hmem, if_false]
    exact ⟨hlt, hinv⟩

theorem cl_wf_step (l : client_list) (op : cl_op) (h : cl_wf l) : cl_wf (cl_step l op) := by
  cases op with
  | add c ok => exact cl_wf_add l c ok h
  | remove c ok => exact cl_wf_remove l c ok h

theorem cl_wf_run (capacity : Nat) (ops : List cl_op) :
    cl_wf (client_list_run capacity ops) := by
  unfold client_list_run
  have hfold : ∀ (rest : List cl_op) (l : client_list), cl_wf l → cl_wf (rest.foldl cl_step l) := by
    intro rest
    induction rest with
    | nil => intro l h; exact h
    | cons op more ih =>
      intro l h
      exact ih (cl_step l op) (cl_wf_step l op h)
  exact hfold ops _ (cl_wf_create capacity)

/-- C5 (corrected): for every sequence of client_list_create / client_list_add
/ client_list_remove operations, the capacity is a power of two or has
collapsed to zero, and whenever it is a power of two the size is bounded by
it.  The original claim's shrink floor does not exist in the code (see the
counterexample): client_list_remove halves the capacity whenever the
post-removal size·2 ≤ capacity, even below the default initial capacity 8. -/
theorem c5_client_list_capacity_invariant (capacity : Nat) (ops : List cl_op) :
    (client_list_run capacity ops).capacity = 0 ∨
      ((∃ k, (client_list_run capacity ops).capacity = 2 ^ k) ∧
        (client_list_run capacity ops).clients.length ≤ (client_list_run capacity ops).capacity) :=
  (cl_wf_run capacity ops).2

/-- C5 counterexample: create(0) gives capacity 8; one add and one successful
remove leave size 0 and capacity 4, so the claimed disjunction
"size·2 > capacity or capacity = 8 (never shrinks below the default)" is
false: the list did shrink below the default initial capacity. -/
theorem c5_shrink_floor_counterexample :
    (client_list_run 0 [cl_op.add 5 true, cl_op.remove 5 true]).capacity = 4 ∧
      ¬(2 * (client_list_run 0 [cl_op.add 5 true, cl_op.remove 5 true]).clients.length >
          (client_list_run 0 [cl_op.add 5 true, cl_op.remove 5 true]).capacity ∨
        (client_list_run 0 [cl_op.add 5 true, cl_op.remove 5 true]).capacity =
          CLIENT_LIST_DEFAULT_INITIAL_CAPACITY) := by
  decide

/-! ## Client-list marshalling (client-list.c lines 189-241)

`buf_set_next` / `buf_get_next` come from the (absent) macros.h.  Modelled
from the spec: they store or load one numeric field at the host's native
width and advance the cursor; `sizeof(int) = 4`, `sizeof(size_t) =
sizeof(uint64_t) = 8`.  A marshalled buffer is modelled as the list of its
bytes (little-endian within each field). -/

/-- Little-endian byte encoding of a value at a given byte width. -/
def buf_encode : Nat → Nat → List Nat
  | 0, _ => []
  | w + 1, v => v % 256 :: buf_encode w (v / 256)

/-- Little-endian byte decoding at a given byte width (reading past the end
of the buffer yields zeros, which a well-formed caller never does). -/
def buf_decode : Nat → List Nat → Nat
  | 0, _ => 0
  | _ + 1, [] => 0
  | w + 1, b :: rest => b + 256 * buf_decode w rest

/-- CLIENT_LIST_T_VERSION. -/
def CLIENT_LIST_T_VERSION : Nat := 0

/-- `client_list_marshal` (client-list.c lines 201-208): version (int),
capacity (size_t), size (size_t), then the first `size` clients (uint64). -/
def client_list_marshal (l : client_list) : List Nat :=
  buf_encode 4 CLIENT_LIST_T_VERSION ++ buf_encode 8 l.capacity ++
    buf_encode 8 l.clients.length ++ (l.clients.map (buf_encode 8)).flatten

/-- The memcpy into the freshly allocated client array: read `n` uint64
values from the byte buffer. -/
def read_clients : Nat → List Nat → List Nat
  | 0, _ => []
  | n + 1, data => buf_decode 8 (data.take 8) :: read_clients n (data.drop 8)

/-- `client_list_unmarshal` (client-list.c lines 219-241): skip the version,
read capacity and size, allocate `capacity` slots (failure returns -1,
modelled as none), and copy in the first `size` clients. -/
def client_list_unmarshal (data : List Nat) (allocOk : Bool) : Option client_list :=
  let rest := data.drop 4
  let capacity := buf_decode 8 (rest.take 8)
  let rest := rest.drop 8
  let size := buf_decode 8 (rest.take 8)
  let rest := rest.drop 8
  if allocOk then
    some { capacity := capacity, clients := read_clients size rest }
  else
    none

theorem buf_encode_length (w v : Nat) : (buf_encode w v).length = w := by
  induction w generalizing v with
  | zero => rfl
  | succ w ih => simp [buf_encode, ih]

theorem take_buf_encode (w v : Nat) (rest : List Nat) :
    (buf_encode w v ++ rest).take w = buf_encode w v :=
  List.take_left' (buf_encode_length w v)

theorem drop_buf_encode (w v : Nat) (rest : List Nat) :
    (buf_encode w v ++ rest).drop w = rest :=
  List.drop_left' (buf_encode_length w v)

theorem buf_decode_encode (w v : Nat) (h : v < 256 ^ w) :
    buf_decode w (buf_encode w v) = v := by
  induction w generalizing v with
  | zero =>
    simp [buf_encode, buf_decode]
    omega
  | succ w ih =>
    have hlt : v / 256 < 256 ^ w := by
      rw [Nat.div_lt_iff_lt_mul (by norm_num)]
      rw [pow_succ] at h
      omega
    simp only [buf_encode, buf_decode, ih (v / 256) hlt]
    omega

theorem read_clients_join (cs : List Nat) (rest : List Nat)
    (h : ∀ c ∈ cs, c < 256 ^ 8) :
    read_clients cs.length ((cs.map (buf_encode 8)).flatten ++ rest) = cs := by
  induction cs with
  | nil => rfl
  | cons c cs ih =>
    simp only [List.map_cons, List.flatten_cons, List.length_cons, read_clients,
      List.append_assoc]
    rw [take_buf_encode, drop_buf_encode,
      buf_decode_encode 8 c (h c (List.mem_cons_self c cs)),
      ih (fun x hx => h x (List.mem_cons_of_mem c hx))]

/-- C6: unmarshalling the buffer produced by marshalling a client list yields
a list with the same capacity, the same size and the same element sequence
(the fields are size_t / uint64 values, hence the 2^64 bounds). -/
theorem c6_client_list_marshal_roundtrip (l : client_list)
    (hcap : l.capacity < 2 ^ 64) (hsize : l.clients.length < 2 ^ 64)
    (hclients : ∀ c ∈ l.clients, c < 2 ^ 64) :
    client_list_unmarshal (client_list_marshal l) true = some l := by
  have h256 : (256 : Nat) ^ 8 = 2 ^ 64 := by norm_num
  have e1 : buf_decode 8 (buf_encode 8 l.capacity) = l.capacity :=
    buf_decode_encode 8 l.capacity (by omega)
  have e2 : buf_decode 8 (buf_encode 8 l.clients.length) = l.clients.length :=
    buf_decode_encode 8 l.clients.length (by omega)
  have e3 : read_clients l.clients.length (l.clients.map (buf_encode 8)).flatten =
      l.clients := by
    have := read_clients_join l.clients []
      (by intro c hc; rw [h256]; exact hclients c hc)
    simpa using this
  unfold client_list_marshal client_list_unmarshal
  simp only [List.append_assoc, drop_buf_encode, take_buf_encode, e1, e2, e3, if_true]

/-- C6 witness: the empty list from create(0) has capacity 8 and size 0, and
round-trips through marshal/unmarshal unchanged. -/
theorem c6_roundtrip_witness :
    client_list_create 0 = { capacity := 8, clients := [] } ∧
      client_list_unmarshal (client_list_marshal { capacity := 8, clients := [] }) true =
        some { capacity := 8, clients := [] } :=
  ⟨by decide, c6_client_list_marshal_roundtrip { capacity := 8, clients := [] }
    (by decide) (by decide) (by intro c hc; cases hc)⟩

/-! ## Indexed linked list (src/libmdsserver/linked-list.c)

Slot indices are ssize_t (Int); the parallel arrays are modelled as total
functions on Int whose unwritten positions hold the garbage value 0.
LINKED_LIST_UNUSED is -1. -/

/-- LINKED_LIST_UNUSED. -/
def LINKED_LIST_UNUSED : Int := -1

/-- LINKED_LIST_DEFAULT_INITIAL_CAPACITY. -/
def LINKED_LIST_DEFAULT_INITIAL_CAPACITY : Nat := 128

/-- One array store: arr[i] = v. -/
def array_write (arr : Int → Int) (i v : Int) : Int → Int :=
  fun j => if j = i then v else arr j

/-- The linked_list_t struct.  `end_` is the C field `end`; `values` carries
Int entries as well so that an out-of-bounds store of a size_t value needs no
separate array type. -/
structure linked_list where
  capacity : Nat
  edge : Nat
  end_ : Nat
  reuse_head : Nat
  reusable : Int → Int
  values : Int → Int
  next : Int → Int
  previous : Int → Int

/-- `linked_list_create` (linked-list.c lines 60-89): capacity 0 means the
default 128, rounded by `to_power_of_two`; the sentinel slot 0 (`edge`) forms
a one-element ring.  Allocation failures leave these fields as written, so
they are not parameters. -/
def linked_list_create (capacity : Nat) : linked_list :=
  { capacity := to_power_of_two
      (if capacity = 0 then LINKED_LIST_DEFAULT_INITIAL_CAPACITY else capacity),
    edge := 0,
    end_ := 1,
    reuse_head := 0,
    reusable := fun _ => 0,
    values := array_write (fun _ => 0) 0 0,
    next := array_write (fun _ => 0) 0 0,
    previous := array_write (fun _ => 0) 0 0 }

/-- `linked_list_get_next` (linked-list.c lines 268-289): pop the free stack
if non-empty; otherwise grow (capacity <<= 1 before the reallocs) when the
arrays are full, returning LINKED_LIST_UNUSED if a realloc fails, and return
`end++`.  `allocOk` is the outcome of the reallocation group. -/
def linked_list_get_next (l : linked_list) (allocOk : Bool) : linked_list × Int :=
  if l.reuse_head > 0 then
    ({ l with reuse_head := l.reuse_head - 1 }, l.reusable ((l.reuse_head : Int) - 1))
  else if l.end_ = l.capacity then
    if allocOk then
      ({ l with capacity := 2 * l.capacity % 2 ^ 64, end_ := l.end_ + 1 }, (l.end_ : Int))
    else
      ({ l with capacity := 2 * l.capacity % 2 ^ 64 }, LINKED_LIST_UNUSED)
  else
    ({ l with end_ := l.end_ + 1 }, (l.end_ : Int))

/-- `linked_list_insert_after` (linked-list.c lines 319-328).  The returned
slot of `linked_list_get_next` is used unchecked:
  values[node] = value; next[node] = next[predecessor]; next[predecessor] = node;
  previous[node] = predecessor; previous[next[node]] = node. -/
def linked_list_insert_after (l : linked_list) (value : Int) (predecessor : Int)
    (allocOk : Bool) : linked_list × Int :=
  let r := linked_list_get_next l allocOk
  let l := r.1
  let node := r.2
  let values := array_write l.values node value
  let next := array_write l.next node (l.next predecessor)
  let next := array_write next predecessor node
  let previous := array_write l.previous node predecessor
  let previous := array_write previous (next node) node
  ({ l with values := values, next := next, previous := previous }, node)

/-- `linked_list_insert_before` (linked-list.c lines 356-365).  Verbatim from
the source, including `previous[node] = next[successor]` (the source reads
the successor's *next* pointer where its predecessor is expected):
  values[node] = value; previous[node] = next[successor]; previous[successor] = node;
  next[node] = successor; next[previous[node]] = node. -/
def linked_list_insert_before (l : linked_list) (value : Int) (successor : Int)
    (allocOk : Bool) : linked_list × Int :=
  let r := linked_list_get_next l allocOk
  let l := r.1
  let node := r.2
  let values := array_write l.values node value
  let previous := array_write l.previous node (l.next successor)
  let previous := array_write previous successor node
  let next := array_write l.next node successor
  let next := array_write next (previous node) node
  ({ l with values := values, next := next, previous := previous }, node)

/-- The head scan in `linked_list_pack` (lines 198-199):
`while (head != end && next[head] == UNUSED) head++`, fuel-bounded by the
number of slots. -/
def scan_head (l : linked_list) (h fuel : Nat) : Nat :=
  match fuel with
  | 0 => h
  | fuel + 1 =>
    if h ≠ l.end_ ∧ l.next (h : Int) = LINKED_LIST_UNUSED then
      scan_head l (h + 1) fuel
    else h

/-- The traversal in `linked_list_pack` (lines 200-205):
`for (node = head; node != head || i == 0; i++) { vals[i] = values[node]; node = next[node]; }`,
fuel-bounded (the C loop runs until the ring closes; on a consistent list at
most `end` iterations happen, so any fuel of at least `end + 1` is exact). -/
def pack_collect (l : linked_list) (head node : Int) (i fuel : Nat) : List Int :=
  match fuel with
  | 0 => []
  | fuel + 1 =>
    if node ≠ head ∨ i = 0 then
      l.values node :: pack_collect l head (l.next node) (i + 1) fuel
    else []

/-- `linked_list_pack` (linked-list.c lines 186-257).  Collect the live
values in traversal order, reallocate the arrays at
`cap = to_power_of_two(size)` when that differs from the current capacity,
rebuild `next`/`previous` over slots `0..size-1`, reset the free stack and
set `end = size`.  The source never assigns `this->capacity = cap`; this
model keeps that faithfully.  `allocOk` is the outcome of the allocation
group (vals and, when cap differs, the three fresh arrays). -/
def linked_list_pack (l : linked_list) (allocOk : Bool) : Option linked_list :=
  let size := l.end_ - l.reuse_head
  let cap := to_power_of_two size
  if ¬ allocOk then none
  else
    let head := scan_head l 0 l.end_
    let vals := if head = l.end_ then []
      else pack_collect l (head : Int) (head : Int) 0 (l.end_ + 1)
    let base_next : Int → Int := if cap ≠ l.capacity then fun _ => 0 else l.next
    let base_previous : Int → Int := if cap ≠ l.capacity then fun _ => 0 else l.previous
    let base_reusable : Int → Int := if cap ≠ l.capacity then fun _ => 0 else l.reusable
    let next : Int → Int := fun j =>
      if 0 ≤ j ∧ j < (size : Int) then (if j = (size : Int) - 1 then 0 else j + 1)
      else base_next j
    let previous : Int → Int := fun j =>
      if 1 ≤ j ∧ j < (size : Int) then j - 1
      else if j = 0 then (size : Int) - 1
      else base_previous j
    let values : Int → Int := fun j =>
      if 0 ≤ j ∧ j < (size : Int) then vals.getD j.toNat 0 else 0
    some { capacity := l.capacity, edge := l.edge, end_ := size, reuse_head := 0,
           reusable := base_reusable, values := values, next := next,
           previous := previous }

/-- A fresh list with default capacity 128: only the sentinel ring. -/
def ll_demo0 : linked_list := linked_list_create 0

/-- After insert_after(value 11, predecessor 0): ring 0 -> 1 -> 0. -/
def ll_demo1 : linked_list := (linked_list_insert_after ll_demo0 11 0 true).1

/-- After insert_after(value 22, predecessor 1): ring 0 -> 1 -> 2 -> 0. -/
def ll_demo2 : linked_list := (linked_list_insert_after ll_demo1 22 1 true).1

/-- After insert_before(value 33, successor 2) on the three-ring. -/
def ll_demo3 : linked_list := (linked_list_insert_before ll_demo2 33 2 true).1

/-- C8 (code bug): on the ring 0 -> 1 -> 2 -> 0, insert_before(33, successor 2)
creates node 3 whose predecessor is 0 (= next[2]) instead of 1 (= the former
previous[2]), and afterwards the in-use slot 1 violates
next[previous[1]] = 1 and previous[next[1]] = 1: the ring is corrupted. -/
theorem c8_insert_before_corrupts_ring :
    (linked_list_insert_before ll_demo2 33 2 true).2 = 3 ∧
    ll_demo2.previous 2 = 1 ∧
    ll_demo3.previous 3 = 0 ∧
    ll_demo3.previous 1 = 0 ∧ ll_demo3.next 0 = 3 ∧
    ll_demo3.next 1 = 2 ∧ ll_demo3.previous 2 = 3 := by
  decide

/-- The pack of the two-live-slot list (sentinel plus one element). -/
def ll_demo1_packed : Option linked_list := linked_list_pack ll_demo1 true

/-- C9 (code bug): packing the capacity-128 list with 2 live slots compacts
the elements into slots 0 and 1 in traversal order, resets the free stack and
sets end = 2, and the arrays are reallocated at to_power_of_two(2) = 2 slots,
but the capacity field keeps its old value 128 instead of 2. -/
theorem c9_pack_keeps_stale_capacity :
    ll_demo1.capacity = 128 ∧
    to_power_of_two 2 = 2 ∧
    ll_demo1_packed.map linked_list.capacity = some 128 ∧
    ll_demo1_packed.map linked_list.end_ = some 2 ∧
    ll_demo1_packed.map linked_list.reuse_head = some 0 ∧
    ll_demo1_packed.map (fun r => r.values 0) = some 0 ∧
    ll_demo1_packed.map (fun r => r.values 1) = some 11 ∧
    ll_demo1_packed.map (fun r => r.next 0) = some 1 ∧
    ll_demo1_packed.map (fun r => r.next 1) = some 0 ∧
    ll_demo1_packed.map (fun r => r.previous 0) = some 1 ∧
    ll_demo1_packed.map (fun r => r.previous 1) = some 0 := by
  decide

/-- The insert_after on a full list (create(1): capacity 1, end 1, empty free
stack) whose reallocation fails. -/
def ll_full_insert : linked_list × Int :=
  linked_list_insert_after (linked_list_create 1) 7 0 false

/-- C10 (code bug): when the reallocation inside linked_list_get_next fails,
linked_list_insert_after does return LINKED_LIST_UNUSED, but it first uses -1
as an array index: it stores the value at values[-1], writes next[-1] and
previous[-1], and corrupts the sentinel with next[0] = previous[0] = -1. -/
theorem c10_insert_after_uses_negative_index :
    ll_full_insert.2 = LINKED_LIST_UNUSED ∧
    ll_full_insert.1.values (-1) = 7 ∧
    ll_full_insert.1.next (-1) = 0 ∧
    ll_full_insert.1.previous (-1) = 0 ∧
    ll_full_insert.1.next 0 = -1 ∧
    ll_full_insert.1.previous 0 = -1 := by
  decide

/-! ## Registry service (src/mds-registry.c) -/

/-- Modelled from the spec (libc): atoll parses the leading decimal digits of
the string; the values used by the registry are plain decimals, so sign and
whitespace handling are not exercised. -/
def atoll_digits : List Char → Nat → Nat
  | [], acc => acc
  | c :: rest, acc =>
    if '0' ≤ c ∧ c ≤ '9' then atoll_digits rest (acc * 10 + (c.toNat - 48)) else acc

/-- atoll on a string, as a Nat (the registry casts the result to size_t or
uint64_t immediately). -/
def atoll (s : String) : Nat := atoll_digits s.toList 0

/-- `parse_client_id` (mds-registry.c lines 553-568): split at the first
colon, parse both halves with atoll, and combine as high << 32 | low. -/
def parse_client_id (str : String) : Nat :=
  let high := atoll (str.takeWhile (fun c => c ≠ ':'))
  let low := atoll ((str.dropWhile (fun c => c ≠ ':')).drop 1)
  (high <<< 32) % 2 ^ 64 ||| low % 2 ^ 64

/-- Modelled from the spec: hash-table.c is not under src/.  Spec 4.C: `put`
returns the previous value when the key was already present (replacement) and
zero — modelled as none — with errno 0 when the key was newly inserted.  The
registry table uses string keys (string_comparator / string_hash); iteration
order is the association-list order here (the spec leaves hash order open). -/
def hash_table_put : List (String × client_list) → String → client_list →
    List (String × client_list) × Option client_list
  | [], key, value => ([(key, value)], none)
  | e :: rest, key, value =>
    if e.1 = key then ((key, value) :: rest, some e.2)
    else
      let r := hash_table_put rest key value
      (e :: r.1, r.2)

/-- Modelled from the spec: hash_table_contains_key on a string-keyed table. -/
def hash_table_contains_key (table : List (String × client_list)) (key : String) : Bool :=
  table.any (fun e => e.1 = key)

/-- Modelled from the spec: hash_table_get returns the stored value, zero if
absent (never exercised here: the caller checks contains_key first). -/
def hash_table_get (table : List (String × client_list)) (key : String) : client_list :=
  ((table.find? (fun e => e.1 = key)).map (fun e => e.2)).getD { capacity := 0, clients := [] }

/-- `registry_action_add` (mds-registry.c lines 580-616).  Result:
(return value, table afterwards, dangling flag).  The dangling flag is true
exactly when the error path `hash_table_put(...) == 0` ran: the code then
destroys and frees the freshly inserted client list and key string although
the table still references them.  The four Bools are the outcomes of
malloc(list), strdup(command), client_list_create's xmalloc, and the
reallocation client_list_add might need. -/
def registry_action_add (has_key : Bool) (command : String) (client : Nat)
    (table : List (String × client_list))
    (alloc_list alloc_strdup alloc_create alloc_add : Bool) :
    Int × List (String × client_list) × Bool :=
  if has_key then
    let list := hash_table_get table command
    let r := client_list_add list client alloc_add
    if r.2 < 0 then (-1, table, false)
    else (0, table.map (fun e => if e.1 = command then (e.1, r.1) else e), false)
  else
    if ¬ alloc_list then (-1, table, false)
    else if ¬ alloc_strdup then (-1, table, false)
    else if ¬ alloc_create then (-1, table, false)
    else
      let r := client_list_add (client_list_create 1) client alloc_add
      if r.2 ≠ 0 then (-1, table, false)
      else
        let p := hash_table_put table command r.1
        if p.2 = none then (-1, p.1, true)
        else (0, p.1, false)

/-- C2 (code bug): adding a command that is not yet in the registry, with
every allocation succeeding, inserts the fresh one-client list but then takes
the failure path anyway — `hash_table_put` returns 0 for a new key and the
code treats any 0 as failure without checking errno — freeing the list and
the key string while the table still holds them, and reporting -1. -/
theorem c2_registry_add_fresh_key_reports_failure :
    registry_action_add false "draw" 42 [] true true true true =
      (-1, [("draw", { capacity := 1, clients := [42] })], true) := by
  decide

/-- INT32_MAX. -/
def INT32_MAX : Int := 2147483647

/-- `list_registry` (mds-registry.c lines 773-829), with all send-buffer
allocations succeeding.  Result: (header block, payload, next message_id).
The payload is every key of the table, each terminated by a newline, in
iteration order.  The header block reproduces the sprintf verbatim, with its
arguments in source order: the first %s receives recv_message_id and the
second %s receives recv_client_id.  On the wire the header block is sent
first, then the payload (two full_send calls, one message). -/
def list_registry (table : List (String × client_list))
    (recv_client_id recv_message_id : String) (message_id : Int) :
    String × String × Int :=
  let payload := String.join (table.map (fun e => e.1 ++ "\n"))
  let headers := "To: " ++ recv_message_id ++ "\nIn response to: " ++ recv_client_id ++
    "\nMessage ID: " ++ toString message_id ++ "\nLength: " ++ toString payload.length ++
    "\n\n"
  (headers, payload, if message_id = INT32_MAX then 0 else message_id + 1)

/-- The registry state the C1 scenario describes: draw implemented by 1:100
and 1:101, input implemented by 1:100.  (The add path itself cannot build
this state in this snapshot, see C2; the list behaviour is independent of
how the table came to be.) -/
def c1_table : List (String × client_list) :=
  [("draw", { capacity := 2, clients := [parse_client_id "1:100", parse_client_id "1:101"] }),
   ("input", { capacity := 1, clients := [parse_client_id "1:100"] })]

/-- Split a string at newlines (String.splitOn does not reduce in the
kernel); used to inspect the produced header block line by line. -/
def split_on_nl : List Char → List Char → List String
  | [], acc => [String.mk acc.reverse]
  | c :: rest, acc =>
    if c = '\n' then String.mk acc.reverse :: split_on_nl rest []
    else split_on_nl rest (c :: acc)

/-- The lines of a header block. -/
def header_lines (s : String) : List String := split_on_nl s.toList []

/-- C1 (code bug): the list reply for client "2:7", incoming message ID 42,
at message_id 2.  The payload is "draw\ninput\n" (already sorted) and Length
is its byte count 11 and Message ID is 2, but the sprintf's %s arguments are
swapped: the header block reads "To: 42" and "In response to: 2:7" instead of
"To: 2:7" and "In response to: 42". -/
theorem c1_list_registry_swapped_headers :
    (list_registry c1_table "2:7" "42" 2).1 =
      "To: 42\nIn response to: 2:7\nMessage ID: 2\nLength: 11\n\n" ∧
    (list_registry c1_table "2:7" "42" 2).2.1 = "draw\ninput\n" ∧
    (list_registry c1_table "2:7" "42" 2).2.1.length = 11 ∧
    (list_registry c1_table "2:7" "42" 2).2.2 = 3 ∧
    header_lines (list_registry c1_table "2:7" "42" 2).1 =
      ["To: 42", "In response to: 2:7", "Message ID: 2", "Length: 11", "", ""] ∧
    "To: 2:7" ∉ header_lines (list_registry c1_table "2:7" "42" 2).1 ∧
    "In response to: 42" ∉ header_lines (list_registry c1_table "2:7" "42" 2).1 := by
  decide

/-- Prefix test on char lists: does the second list start with the first? -/
def chars_startswith : List Char → List Char → Bool
  | [], _ => true
  | _ :: _, [] => false
  | p :: ps, c :: cs => p = c && chars_startswith ps cs

/-- Modelled from the spec: `startswith` from the absent macros.h — does the
string start with the given prefix? -/
def startswith (s pre : String) : Bool := chars_startswith pre.toList s.toList

/-- Pointer arithmetic `header + strlen(prefix)`: the string without its
first n characters. -/
def string_drop (s : String) (n : Nat) : String := String.mk (s.toList.drop n)

/-- `strchr(s, ':') != NULL`. -/
def contains_colon (s : String) : Bool := s.toList.any (fun c => c = ':')

/-- The header scan of `handle_register_message` (mds-registry.c lines
411-425): each header is matched against the four prefixes in order; a match
stores the suffix; the loop breaks once all four are set. -/
def scan_headers : List String → Option String → Option String → Option String →
    Option String → Option String × Option String × Option String × Option String
  | [], ci, mi, le, ac => (ci, mi, le, ac)
  | h :: rest, ci, mi, le, ac =>
    if startswith h "Client ID: " then
      let ci := some (string_drop h 11)
      if mi.isSome && le.isSome && ac.isSome then (ci, mi, le, ac)
      else scan_headers rest ci mi le ac
    else if startswith h "Message ID: " then
      let mi := some (string_drop h 12)
      if ci.isSome && le.isSome && ac.isSome then (ci, mi, le, ac)
      else scan_headers rest ci mi le ac
    else if startswith h "Length: " then
      let le := some (string_drop h 8)
      if ci.isSome && mi.isSome && ac.isSome then (ci, mi, le, ac)
      else scan_headers rest ci mi le ac
    else if startswith h "Action: " then
      let ac := some (string_drop h 8)
      if ci.isSome && mi.isSome && le.isSome then (ci, mi, le, ac)
      else scan_headers rest ci mi le ac
    else scan_headers rest ci mi le ac

/-- What `handle_register_message` does with a validated message. -/
inductive reg_outcome where
  /-- One of the eprint-and-return-0 rejection branches ran. -/
  | ignored
  /-- recv_action stayed NULL and was passed to strequals, i.e. strcmp(NULL,·):
  undefined behaviour in the C. -/
  | null_action_strequals
  /-- registry_action(length, action, client_id, message_id) was called
  (action 1 = add, -1 = remove, 0 = wait). -/
  | registry_act (action : Int) (length : Nat) (client_id message_id : String)
  /-- list_registry(client_id, message_id) was called. -/
  | registry_list (client_id message_id : String)
deriving DecidableEq, Repr

/-- `handle_register_message` (mds-registry.c lines 403-470) up to the
dispatch: header scan, the four rejection checks, `length = atoll(recv_length)`,
then verbatim `if (recv_action != NULL) recv_action = "add";` and the
strequals dispatch chain. -/
def handle_register_message (headers : List String) : reg_outcome :=
  let s := scan_headers headers none none none none
  let mi := s.2.1
  let le := s.2.2.1
  match s.1 with
  | none => reg_outcome.ignored
  | some c =>
    if c = "0:0" then reg_outcome.ignored
    else if !contains_colon c then reg_outcome.ignored
    else if le = none ∧ (s.2.2.2 = none ∨ s.2.2.2 ≠ some "list") then reg_outcome.ignored
    else if mi = none then reg_outcome.ignored
    else
      let length := match le with
        | some v => atoll v
        | none => 0
      let ac := if s.2.2.2 ≠ none then some "add" else s.2.2.2
      match ac, mi with
      | none, _ => reg_outcome.null_action_strequals
      | some _, none => reg_outcome.ignored
      | some a, some m =>
        if a = "add" then reg_outcome.registry_act 1 length c m
        else if a = "remove" then reg_outcome.registry_act (-1) length c m
        else if a = "wait" then reg_outcome.registry_act 0 length c m
        else if a = "list" then reg_outcome.registry_list c m
        else reg_outcome.ignored

/-- C3 (code bug): a valid register message with "Action: remove" is
dispatched as an add (the code's `if (recv_action != NULL) recv_action = "add"`
overwrites every present Action header), and with the Action header absent
but a payload present the NULL action reaches strequals instead of
defaulting to add. -/
theorem c3_action_header_ignored :
    handle_register_message
        ["Client ID: 1:2", "Message ID: 5", "Length: 4", "Action: remove"] =
      reg_outcome.registry_act 1 4 "1:2" "5" ∧
    handle_register_message ["Client ID: 1:2", "Message ID: 5", "Length: 4"] =
      reg_outcome.null_action_strequals := by
  decide

/-- The errno values master_loop distinguishes. -/
inductive errno_kind where
  | eintr
  | econnreset
  | other
deriving DecidableEq, Repr

/-- How one iteration of the master loop ends. -/
inductive loop_step where
  /-- continue with the next iteration -/
  | next_iteration
  /-- goto fail with rc = 1: the registry table and the message are
  destroyed and master_loop returns 1 -/
  | fail_exit
  /-- perror then the same failure exit -/
  | pfail_exit
  /-- the parser was destroyed and re-initialised and the connection was
  re-established; the loop continues -/
  | reconnected
deriving DecidableEq, Repr

/-- One iteration of `master_loop` (mds-registry.c lines 351-378).
`read_result` is mds_message_read's return value (0 = message ready, -2 =
malformed, otherwise -1 with errno), `handle_result` is handle_message's
return value (used only when the read succeeded), `err` is the errno left
behind, and `reconnect_ok` is the outcome of reconnect_to_display (in this
snapshot that macro is the constant -1, so reconnection always fails). -/
def master_loop_iteration (read_result handle_result : Int) (err : errno_kind)
    (reconnect_ok : Bool) : loop_step :=
  let r := if read_result = 0 then handle_result else read_result
  if read_result = 0 ∧ r = 0 then loop_step.next_iteration
  else if r = -2 then loop_step.fail_exit
  else if err = errno_kind.eintr then loop_step.next_iteration
  else if err ≠ errno_kind.econnreset then loop_step.pfail_exit
  else if reconnect_ok then loop_step.reconnected
  else loop_step.fail_exit

/-- C4 counterexample: a malformed message (read result -2) makes the loop
take the failure exit, which is not the reconnect path the claim describes. -/
theorem c4_malformed_counterexample :
    master_loop_iteration (-2) 0 errno_kind.other true = loop_step.fail_exit ∧
    loop_step.fail_exit ≠ loop_step.reconnected := by
  decide

/-- C4 (corrected): whenever mds_message_read returns -2 the master loop
prints "corrupt message received, aborting." and exits with failure — the
registry table and the message are destroyed — for every handler result,
errno value and reconnect outcome; it does not reconnect. -/
theorem c4_malformed_is_fatal (handle_result : Int) (err : errno_kind)
    (reconnect_ok : Bool) :
    master_loop_iteration (-2) handle_result err reconnect_ok = loop_step.fail_exit := by
  rfl

/-- WIFEXITED on a Linux wait status: the low seven bits are zero. -/
def wifexited (status : Nat) : Bool := status % 128 == 0

/-- WEXITSTATUS on a Linux wait status. -/
def wexitstatus (status : Nat) : Nat := status / 256 % 256

/-- WTERMSIG on a Linux wait status. -/
def wtermsig (status : Nat) : Nat := status % 128

/-- What the supervisor does after waitpid returns. -/
inductive supervisor_action where
  /-- break: the loop ends and spawn_and_respawn_server returns 0 -/
  | no_respawn
  /-- "died abnormally, respawning.": fork again -/
  | respawn
  /-- "died abnormally, died too fast, not respawning.": return 1 -/
  | abort_no_respawn
deriving DecidableEq, Repr

/-- The post-wait decision of `spawn_and_respawn_server` (mds.c lines
296-321), with both clock_gettime calls succeeding: `status` is the wait
status, `elapsed` is time_end.tv_sec - time_start.tv_sec, and `limit` is
RESPAWN_TIME_LIMIT_SECONDS (config.h, not under src/).  Verbatim from the
source: break when `WIFEXITED(status) || (WEXITSTATUS(status) && WTERMSIG(status))`,
then respawn when `elapsed < limit`, else return 1. -/
def spawn_and_respawn_decision (status : Nat) (elapsed limit : Int) :
    supervisor_action :=
  if wifexited status = true ∨ (wexitstatus status ≠ 0 ∧ wtermsig status ≠ 0) then
    supervisor_action.no_respawn
  else if elapsed < limit then supervisor_action.respawn
  else supervisor_action.abort_no_respawn

/-- C7 (code bug): for a master killed by SIGKILL (wait status 9, an abnormal
death that is neither a normal exit nor SIGTERM), the supervisor respawns
exactly when the child survived *less* than the floor and aborts when it
survived at least the floor — the opposite of the claim (and of the
source's own comment and error messages, which say "died too fast" on the
long-lived side of the comparison). -/
theorem c7_respawn_comparison_inverted (elapsed limit : Int) :
    spawn_and_respawn_decision 9 elapsed limit =
      if elapsed < limit then supervisor_action.respawn
      else supervisor_action.abort_no_respawn := by
  have h : ¬(wifexited 9 = true ∨ (wexitstatus 9 ≠ 0 ∧ wtermsig 9 ≠ 0)) := by decide
  rw [spawn_and_respawn_decision, if_neg h]
